import Mathlib

/-!
Verification development for the Joint Replenishment Problem (JRP) solver in
`src/models/jrp_solver.py`.  The Python module is shallowly embedded below:
Python floats become real numbers, Python exceptions become `Except` errors
(`ZeroDivisionError` and the solver's `ValueError` are the spec's
`InvalidParameters`; the sweep-key `ValueError` is the spec's `InvalidTarget`),
Python's stable `list.sort` becomes `List.insertionSort` (stable for a `≤`
comparison), and Python's `round` (banker's rounding on floats) becomes the
exact half-to-even rounding `pyRound`.
-/

open scoped Classical

/-- Mirrors the `Item` dataclass of `jrp_solver.py`: id, minor setup cost `a`,
demand rate `D`, unit value `v`. -/
structure Item where
  id : String
  a : ℝ
  D : ℝ
  v : ℝ

instance : Inhabited Item := ⟨⟨"", 0, 0, 0⟩⟩

/-- Mirrors the `JRPParams` dataclass: major setup cost `A`, carrying charge
`r`, and the ordered item list. -/
structure JRPParams where
  A : ℝ
  r : ℝ
  items : List Item

/-- Error taxonomy of the spec.  `InvalidParameters` stands for the Python
`ZeroDivisionError` / solver `ValueError` raised on degenerate numeric input;
`InvalidTarget` stands for the `ValueError` raised by
`sensitivity_curve_over_item` on an unknown sweep key. -/
inductive JRPError where
  | InvalidParameters
  | InvalidTarget
deriving DecidableEq

/-- Union of the per-item result dictionaries produced by
`compute_item_metrics` (joint policy) and by `find_independent_policy`.
Keys absent from one of the two dictionaries are modelled as `Option`. -/
structure ItemResult where
  id : String
  DiVi : ℝ
  m : ℤ
  T_star : Option ℝ
  Qivi : Option ℝ
  cycle_time : ℝ
  avg_inventory : ℝ
  annual_holding_cost : ℝ
  annual_setup_cost : ℝ
  Q_i : Option ℝ
  total_cost_item : Option ℝ

/-- Placeholder used for the (provably unreachable) `KeyError` branch of the
`id_to_result` dictionary lookup in `find_formula_policy`: the ranked list is a
permutation of the input items, so every input id is present. -/
def defaultItemResult : ItemResult :=
  { id := "", DiVi := 0, m := 1, T_star := none, Qivi := none, cycle_time := 0,
    avg_inventory := 0, annual_holding_cost := 0, annual_setup_cost := 0,
    Q_i := none, total_cost_item := none }

/-- Return value of the Python helper `total_cost` (all four keys present). -/
structure JointCB where
  total : ℝ
  family_setup : ℝ
  item_setup : ℝ
  holding : ℝ

/-- The `cost_breakdown` dictionary of a returned solution.  The joint policy
stores all four keys; the independent policy stores `family_setup = None` and
no `total` key, hence the `Option` fields. -/
structure CostBreakdown where
  total : Option ℝ
  family_setup : Option ℝ
  item_setup : ℝ
  holding : ℝ

/-- The solution dictionary returned by `find_formula_policy` /
`find_independent_policy`. -/
structure Solution where
  T_star : Option ℝ
  m : List ℤ
  item_results : List ItemResult
  total_cost : ℝ
  cost_breakdown : CostBreakdown
  method : String

/-- The ranking key `it.a / (it.D * it.v)` from Step 1 of
`find_formula_policy`. -/
noncomputable def ratioOf (it : Item) : ℝ := it.a / (it.D * it.v)

/-- Step 1 of `find_formula_policy`: Python's stable `ratios.sort` by the
ranking key, modelled by the stable insertion sort on the `≤` comparison of
ranking keys. -/
noncomputable def rankItems (items : List Item) : List Item :=
  List.insertionSort (fun x y => ratioOf x ≤ ratioOf y) items

/-- Exact model of Python's `round` on a real value: round half to even. -/
noncomputable def pyRound (x : ℝ) : ℤ :=
  if Int.fract x < 1 / 2 then ⌊x⌋
  else if 1 / 2 < Int.fract x then ⌊x⌋ + 1
  else if Even ⌊x⌋ then ⌊x⌋ else ⌊x⌋ + 1

/-- The continuous multiplier candidate of Step 3 of `find_formula_policy`:
`sqrt((a_i * D_base * v_base) / ((A + a_base) * (D_i * v_i)))`. -/
noncomputable def mval (A : ℝ) (base it : Item) : ℝ :=
  Real.sqrt ((it.a * base.D * base.v) / ((A + base.a) * (it.D * it.v)))

/-- Step 3 of `find_formula_policy`: `max(1, int(round(m_val)))`. -/
noncomputable def multiplier (A : ℝ) (base it : Item) : ℤ :=
  max 1 (pyRound (mval A base it))

/-- The whole multiplier list `m_list` of `find_formula_policy`: `1` for the
base item, the rounded clamped candidate for each later ranked item. -/
noncomputable def assignedMs (A : ℝ) : List Item → List ℤ
  | [] => []
  | base :: rest => 1 :: rest.map (multiplier A base)

/-- Model of `sum(it.a / m for it, m in zip(items, m_list))`. -/
noncomputable def sumAoverM : List Item → List ℤ → ℝ
  | it :: its, m :: ms => it.a / (m : ℝ) + sumAoverM its ms
  | _, _ => 0

/-- Model of `sum(it.D * it.v * m for it, m in zip(items, m_list))`. -/
noncomputable def sumDVm : List Item → List ℤ → ℝ
  | it :: its, m :: ms => it.D * it.v * (m : ℝ) + sumDVm its ms
  | _, _ => 0

/-- Model of `sum(it.a / (m * T) for it, m in zip(items, m_list))`. -/
noncomputable def sumItemSetup (T : ℝ) : List Item → List ℤ → ℝ
  | it :: its, m :: ms => it.a / ((m : ℝ) * T) + sumItemSetup T its ms
  | _, _ => 0

/-- Model of `sum((it.D * m * T * it.v * r) / 2.0 for it, m in zip(...))`. -/
noncomputable def sumHolding (r T : ℝ) : List Item → List ℤ → ℝ
  | it :: its, m :: ms => it.D * (m : ℝ) * T * it.v * r / 2 + sumHolding r T its ms
  | _, _ => 0

/-- The Python helper `total_cost(A, r, items, T, m_list)`. -/
noncomputable def total_cost (A r : ℝ) (items : List Item) (T : ℝ) (ms : List ℤ) : JointCB :=
  { total := (A + sumAoverM items ms) / T + sumHolding r T items ms,
    family_setup := A / T,
    item_setup := sumItemSetup T items ms,
    holding := sumHolding r T items ms }

/-- One entry of the Python helper `compute_item_metrics` (the joint-policy
per-item dictionary). -/
noncomputable def compute_item_metrics (r T : ℝ) (it : Item) (m : ℤ) : ItemResult :=
  { id := it.id,
    DiVi := it.D * it.v,
    m := m,
    T_star := some T,
    Qivi := some (it.D * it.v * (m : ℝ) * T),
    cycle_time := (m : ℝ) * T,
    avg_inventory := it.D * it.v * (m : ℝ) * T / (2 * it.v),
    annual_holding_cost := it.D * it.v * (m : ℝ) * T / (2 * it.v) * it.v * r,
    annual_setup_cost := it.a / ((m : ℝ) * T),
    Q_i := none,
    total_cost_item := none }

/-- The `id_to_result` dictionary of `find_formula_policy`: a Python dict
built by insertion keeps the last write for a duplicated key, so lookup is
`find?` over the reversed list. -/
def lookupLast (rs : List ItemResult) (i : String) : Option ItemResult :=
  rs.reverse.find? (fun x => x.id == i)

/-- Numerator `2 * (A + sum(a_i / m_i))` of Step 4 of `find_formula_policy`. -/
noncomputable def tNum (A : ℝ) (ordered : List Item) (ms : List ℤ) : ℝ :=
  2 * (A + sumAoverM ordered ms)

/-- Denominator `r * sum(D_i * v_i * m_i)` of Step 4 of
`find_formula_policy`. -/
noncomputable def tDen (r : ℝ) (ordered : List Item) (ms : List ℤ) : ℝ :=
  r * sumDVm ordered ms

/-- Steps 5-7 of `find_formula_policy` (only reached on success): per-item
metrics on the ranked order, cost breakdown, and re-projection of the results
into the caller's original item order through `id_to_result`. -/
noncomputable def buildSolution (A r : ℝ) (inputItems ordered : List Item) (ms : List ℤ)
    (T : ℝ) : Solution :=
  let item_results := List.zipWith (compute_item_metrics r T) ordered ms
  let cb := total_cost A r ordered T ms
  let ordered_results :=
    inputItems.map (fun it => (lookupLast item_results it.id).getD defaultItemResult)
  { T_star := some T,
    m := ordered_results.map ItemResult.m,
    item_results := ordered_results,
    total_cost := cb.total,
    cost_breakdown :=
      { total := some cb.total, family_setup := some cb.family_setup,
        item_setup := cb.item_setup, holding := cb.holding },
    method := "formula" }

/-- The Python function `find_formula_policy`.  Error sites, in Python's
evaluation order: the `ZeroDivisionError` from the ranking ratio when some
`D * v = 0`; the `IndexError` on an empty item list; the `ZeroDivisionError` /
`ValueError` from the Step 3 candidate when its denominator is zero or the
square-root argument negative; the explicit `ValueError` when the cycle-time
denominator is non-positive; and the `ValueError` / `ZeroDivisionError` when
the cycle-time numerator is non-positive (square root of a negative number, or
`T* = 0` making the per-item setup-cost division fail). -/
noncomputable def find_formula_policy (p : JRPParams) : Except JRPError Solution :=
  if ∃ it ∈ p.items, it.D * it.v = 0 then .error .InvalidParameters
  else
    if rankItems p.items = [] then .error .InvalidParameters
    else
      if ∃ it ∈ (rankItems p.items).tail,
          (p.A + (rankItems p.items).headI.a) * (it.D * it.v) = 0 ∨
          (it.a * (rankItems p.items).headI.D * (rankItems p.items).headI.v) /
            ((p.A + (rankItems p.items).headI.a) * (it.D * it.v)) < 0 then
        .error .InvalidParameters
      else
        if tDen p.r (rankItems p.items) (assignedMs p.A (rankItems p.items)) ≤ 0 then
          .error .InvalidParameters
        else
          if tNum p.A (rankItems p.items) (assignedMs p.A (rankItems p.items)) ≤ 0 then
            .error .InvalidParameters
          else
            .ok (buildSolution p.A p.r p.items (rankItems p.items)
              (assignedMs p.A (rankItems p.items))
              (Real.sqrt (tNum p.A (rankItems p.items) (assignedMs p.A (rankItems p.items)) /
                tDen p.r (rankItems p.items) (assignedMs p.A (rankItems p.items)))))

/-- One loop iteration of `find_independent_policy`.  Error sites, in Python's
evaluation order: `ZeroDivisionError` when `r * v = 0`; `ValueError` when the
EOQ square-root argument is negative; `ZeroDivisionError` in `cycle_time =
Q_i / D` when `D = 0`; `ZeroDivisionError` in the setup cost `D / Q_i` when
`Q_i = 0`. -/
noncomputable def eoqItem (A r : ℝ) (it : Item) : Except JRPError ItemResult :=
  if r * it.v = 0 then .error .InvalidParameters
  else
    if 2 * (A + it.a) * it.D / (r * it.v) < 0 then .error .InvalidParameters
    else
      if it.D = 0 then .error .InvalidParameters
      else
        if Real.sqrt (2 * (A + it.a) * it.D / (r * it.v)) = 0 then .error .InvalidParameters
        else
          .ok { id := it.id,
                DiVi := it.D * it.v,
                m := 1,
                T_star := none,
                Qivi := none,
                cycle_time := Real.sqrt (2 * (A + it.a) * it.D / (r * it.v)) / it.D,
                avg_inventory := Real.sqrt (2 * (A + it.a) * it.D / (r * it.v)) / 2,
                annual_holding_cost :=
                  Real.sqrt (2 * (A + it.a) * it.D / (r * it.v)) / 2 * it.v * r,
                annual_setup_cost :=
                  (A + it.a) * (it.D / Real.sqrt (2 * (A + it.a) * it.D / (r * it.v))),
                Q_i := some (Real.sqrt (2 * (A + it.a) * it.D / (r * it.v))),
                total_cost_item :=
                  some ((A + it.a) * (it.D / Real.sqrt (2 * (A + it.a) * it.D / (r * it.v))) +
                    Real.sqrt (2 * (A + it.a) * it.D / (r * it.v)) / 2 * it.v * r) }

/-- The item loop of `find_independent_policy`: sequential, first exception
propagates. -/
noncomputable def mapEOQ (A r : ℝ) : List Item → Except JRPError (List ItemResult)
  | [] => .ok []
  | it :: its =>
    match eoqItem A r it with
    | .error e => .error e
    | .ok res =>
      match mapEOQ A r its with
      | .error e => .error e
      | .ok rest => .ok (res :: rest)

/-- The Python function `find_independent_policy`. -/
noncomputable def find_independent_policy (p : JRPParams) : Except JRPError Solution :=
  match mapEOQ p.A p.r p.items with
  | .error e => .error e
  | .ok rs =>
    .ok { T_star := none,
          m := List.replicate p.items.length 1,
          item_results := rs,
          total_cost := (rs.map (fun x => x.annual_setup_cost + x.annual_holding_cost)).sum,
          cost_breakdown :=
            { total := none, family_setup := none,
              item_setup := (rs.map ItemResult.annual_setup_cost).sum,
              holding := (rs.map ItemResult.annual_holding_cost).sum },
          method := "independent_eoq" }

/-- Python's `sol["T_star"] or 0`: `None` (and `0.0`) collapse to `0`. -/
def pyOrZero (o : Option ℝ) : ℝ :=
  match o with
  | none => 0
  | some x => x

/-- Return value of the Python function `compare_policies`. -/
structure Comparison where
  T_star_diff : ℝ
  cost_diff : ℝ
  better : String
  items_count_diff : ℤ

/-- The Python function `compare_policies`. -/
noncomputable def compare_policies (sol1 sol2 : Solution) : Comparison :=
  { T_star_diff := pyOrZero sol1.T_star - pyOrZero sol2.T_star,
    cost_diff := sol1.total_cost - sol2.total_cost,
    better := if sol1.total_cost < sol2.total_cost then "Instance 1" else "Instance 2",
    items_count_diff := (sol1.item_results.length : ℤ) - (sol2.item_results.length : ℤ) }

/-- The shared loop body of the three sensitivity sweeps: solve the policy at
each sample (first exception propagates) and collect the total costs in sample
order. -/
noncomputable def sweepCosts (f : ℝ → JRPParams) : List ℝ → Except JRPError (List ℝ)
  | [] => .ok []
  | v :: vs =>
    match find_formula_policy (f v) with
    | .error e => .error e
    | .ok sol =>
      match sweepCosts f vs with
      | .error e => .error e
      | .ok ys => .ok (sol.total_cost :: ys)

/-- The Python function `sensitivity_curve_over_A`. -/
noncomputable def sensitivity_curve_over_A (p : JRPParams) (A_values : List ℝ) :
    Except JRPError (List ℝ × List ℝ) :=
  match sweepCosts (fun A_val => { A := A_val, r := p.r, items := p.items }) A_values with
  | .error e => .error e
  | .ok ys => .ok (A_values, ys)

/-- The Python function `sensitivity_curve_over_r`. -/
noncomputable def sensitivity_curve_over_r (p : JRPParams) (r_values : List ℝ) :
    Except JRPError (List ℝ × List ℝ) :=
  match sweepCosts (fun r_val => { A := p.A, r := r_val, items := p.items }) r_values with
  | .error e => .error e
  | .ok ys => .ok (r_values, ys)

/-- The item rebuild inside `sensitivity_curve_over_item`: replace the swept
attribute of the named item, keep every other item.  Only reached with a key
in `{a, D, v}`. -/
def substItem (item_id key : String) (val : ℝ) (it : Item) : Item :=
  if it.id == item_id then
    if key == "a" then { id := it.id, a := val, D := it.D, v := it.v }
    else if key == "D" then { id := it.id, a := it.a, D := val, v := it.v }
    else { id := it.id, a := it.a, D := it.D, v := val }
  else it

/-- The Python function `sensitivity_curve_over_item`: the key check (the
spec's `InvalidTarget`) runs before any sample is solved. -/
noncomputable def sensitivity_curve_over_item (p : JRPParams) (item_id key : String)
    (values : List ℝ) : Except JRPError (List ℝ × List ℝ) :=
  if ¬ (key = "a" ∨ key = "D" ∨ key = "v") then .error .InvalidTarget
  else
    match sweepCosts
        (fun val => { A := p.A, r := p.r, items := p.items.map (substItem item_id key val) })
        values with
    | .error e => .error e
    | .ok ys => .ok (values, ys)

/-- Item `1L` of the spec's concrete lecture scenario. -/
def item1L : Item := { id := "1L", a := 15, D := 500, v := 2 }

/-- Item `5L` of the spec's concrete lecture scenario. -/
def item5L : Item := { id := "5L", a := 15, D := 300, v := 2.5 }

/-- Item `10L` of the spec's concrete lecture scenario. -/
def item10L : Item := { id := "10L", a := 15, D := 200, v := 3 }

/-- The spec's concrete lecture scenario `A = 40, r = 0.24`. -/
def lectureParams : JRPParams := { A := 40, r := 0.24, items := [item1L, item5L, item10L] }

/-- A minimal solvable single-item instance used as concrete witness input:
its basic cycle time is `sqrt(2 * (3 + 1) / 2) = 2` and its total cost `4`. -/
def unitItem : Item := { id := "x", a := 1, D := 1, v := 1 }

/-- Single-item parameter set `A = 3, r = 2` around `unitItem`. -/
def simpleParams : JRPParams := { A := 3, r := 2, items := [unitItem] }

/-- Tie item `X`: ranking ratio `1 / (1 * 1) = 1`. -/
def itemX : Item := { id := "X", a := 1, D := 1, v := 1 }

/-- Tie item `Y`: ranking ratio `4 / (4 * 1) = 1`, equal to the ratio of
`itemX` but with a different demand profile. -/
def itemY : Item := { id := "Y", a := 4, D := 4, v := 1 }

/-- High-ratio item `Z`: ranking ratio `100 / (2 * 1) = 50`; its multiplier
candidate depends on which tied item is ranked first. -/
def itemZ : Item := { id := "Z", a := 100, D := 2, v := 1 }

/-- Input order `X, Y, Z` (stable ranking picks `X` as base item). -/
def permParamsA : JRPParams := { A := 1, r := 1, items := [itemX, itemY, itemZ] }

/-- Input order `Y, X, Z`, a permutation of `permParamsA` (stable ranking
picks `Y` as base item). -/
def permParamsB : JRPParams := { A := 1, r := 1, items := [itemY, itemX, itemZ] }

/-- Base item for the rounding-tie instance: ranking ratio `1`. -/
def tieBase : Item := { id := "b", a := 1, D := 1, v := 1 }

/-- Second item of the rounding-tie instance: its continuous multiplier
candidate is `sqrt((25/4 * 1 * 1) / ((0 + 1) * 1)) = 5/2`, exactly halfway
between `2` and `3`. -/
def tieItem : Item := { id := "i", a := 6.25, D := 1, v := 1 }

/-- Parameter set whose second-ranked item has multiplier candidate
exactly `5/2`. -/
def tieParams : JRPParams := { A := 0, r := 1, items := [tieBase, tieItem] }

/-- Degenerate instance: one item with `D = 0` and `v = 0`. -/
def degenerateParams : JRPParams := { A := 1, r := 1, items := [{ id := "x", a := 1, D := 0, v := 0 }] }

/-- Instance with carrying charge `r = 0`, so `r * v = 0` for its item. -/
def zeroRParams : JRPParams := { A := 1, r := 0, items := [unitItem] }

/-- A hand-built cost breakdown summing to `5`. -/
def cbFive : CostBreakdown :=
  { total := some 5, family_setup := some 1, item_setup := 2, holding := 2 }

/-- A hand-built cost breakdown summing to `4`. -/
def cbFour : CostBreakdown :=
  { total := some 4, family_setup := some 1, item_setup := 1, holding := 2 }

/-- A hand-built solution with total cost `5`, used to exercise
`compare_policies`. -/
def solFive : Solution :=
  { T_star := some 2, m := [1], item_results := [defaultItemResult],
    total_cost := 5, cost_breakdown := cbFive, method := "formula" }

/-- A hand-built solution with total cost `5`, no basic cycle time, and no
items, used to exercise `compare_policies` on an exact cost tie. -/
def solFiveIndep : Solution :=
  { T_star := none, m := [], item_results := [],
    total_cost := 5, cost_breakdown := cbFive, method := "independent_eoq" }

/-- A hand-built solution with total cost `4`, used to exercise
`compare_policies` on a strict cost comparison. -/
def solFour : Solution :=
  { T_star := some 1, m := [1], item_results := [defaultItemResult],
    total_cost := 4, cost_breakdown := cbFour, method := "formula" }

/-- Half-to-even rounding agrees with plain nearest-integer rounding away
from any tie: if `x` lies strictly between `k - 1/2` and `k + 1/2` then
`pyRound x = k`. -/
theorem pyRound_eq_of_bounds (k : ℤ) (x : ℝ) (h1 : (k : ℝ) - 1 / 2 < x)
    (h2 : x < (k : ℝ) + 1 / 2) : pyRound x = k := by
  rcases le_or_lt (k : ℝ) x with hk | hk
  · have hfl : ⌊x⌋ = k := Int.floor_eq_iff.mpr ⟨hk, by linarith⟩
    have hfr : Int.fract x < 1 / 2 := by
      simp only [Int.fract, hfl]; linarith
    rw [pyRound, if_pos hfr, hfl]
  · have hfl : ⌊x⌋ = k - 1 := Int.floor_eq_iff.mpr (by push_cast; constructor <;> linarith)
    have hfr : 1 / 2 < Int.fract x := by
      simp only [Int.fract, hfl]; push_cast; linarith
    rw [pyRound, if_neg (by linarith), if_pos hfr, hfl]; ring

/-- On an exact tie `k + 1/2`, `pyRound` picks the even neighbour. -/
theorem pyRound_half (k : ℤ) : pyRound ((k : ℝ) + 1 / 2) = if Even k then k else k + 1 := by
  have h0 : ⌊(1 : ℝ) / 2⌋ = 0 := Int.floor_eq_iff.mpr (by norm_num)
  have hfl : ⌊(k : ℝ) + 1 / 2⌋ = k := by
    rw [add_comm, Int.floor_add_int, h0, zero_add]
  have hfr : Int.fract ((k : ℝ) + 1 / 2) = 1 / 2 := by
    simp only [Int.fract, hfl]; ring
  rw [pyRound, hfr, if_neg (by norm_num), if_neg (by norm_num), hfl]

/-- The reported `item_setup` sum is the `sum(a_i / m_i)` of the cycle-time
numerator divided by `T`, exactly, by distributivity of division. -/
theorem sumItemSetup_eq (T : ℝ) : ∀ (l : List Item) (ms : List ℤ),
    sumItemSetup T l ms = sumAoverM l ms / T := by
  intro l
  induction l with
  | nil => intro ms; cases ms <;> simp [sumItemSetup, sumAoverM]
  | cons it its ih =>
    intro ms
    cases ms with
    | nil => simp [sumItemSetup, sumAoverM]
    | cons m ms => simp [sumItemSetup, sumAoverM, ih, add_div, div_div]

/-- Inversion of a successful `find_formula_policy` run: every guard passed
and the returned solution is `buildSolution` at the ranked items, assigned
multipliers, and computed basic cycle time. -/
theorem formula_ok_inv {p : JRPParams} {s : Solution} (h : find_formula_policy p = .ok s) :
    (¬ ∃ it ∈ p.items, it.D * it.v = 0) ∧
    rankItems p.items ≠ [] ∧
    (¬ ∃ it ∈ (rankItems p.items).tail,
      (p.A + (rankItems p.items).headI.a) * (it.D * it.v) = 0 ∨
      (it.a * (rankItems p.items).headI.D * (rankItems p.items).headI.v) /
        ((p.A + (rankItems p.items).headI.a) * (it.D * it.v)) < 0) ∧
    0 < tDen p.r (rankItems p.items) (assignedMs p.A (rankItems p.items)) ∧
    0 < tNum p.A (rankItems p.items) (assignedMs p.A (rankItems p.items)) ∧
    s = buildSolution p.A p.r p.items (rankItems p.items) (assignedMs p.A (rankItems p.items))
        (Real.sqrt (tNum p.A (rankItems p.items) (assignedMs p.A (rankItems p.items)) /
          tDen p.r (rankItems p.items) (assignedMs p.A (rankItems p.items)))) := by
  by_cases h1 : ∃ it ∈ p.items, it.D * it.v = 0
  · rw [find_formula_policy, if_pos h1] at h; cases h
  rw [find_formula_policy, if_neg h1] at h
  by_cases h2 : rankItems p.items = []
  · rw [if_pos h2] at h; cases h
  rw [if_neg h2] at h
  by_cases h3 : ∃ it ∈ (rankItems p.items).tail,
      (p.A + (rankItems p.items).headI.a) * (it.D * it.v) = 0 ∨
      (it.a * (rankItems p.items).headI.D * (rankItems p.items).headI.v) /
        ((p.A + (rankItems p.items).headI.a) * (it.D * it.v)) < 0
  · rw [if_pos h3] at h; cases h
  rw [if_neg h3] at h
  by_cases h4 : tDen p.r (rankItems p.items) (assignedMs p.A (rankItems p.items)) ≤ 0
  · rw [if_pos h4] at h; cases h
  rw [if_neg h4] at h
  by_cases h5 : tNum p.A (rankItems p.items) (assignedMs p.A (rankItems p.items)) ≤ 0
  · rw [if_pos h5] at h; cases h
  rw [if_neg h5] at h
  exact ⟨h1, h2, h3, lt_of_not_le h4, lt_of_not_le h5, (Except.ok.inj h).symm⟩

/-- C5: a parameter set containing an item with `D = 0` and `v = 0` makes the
joint solve raise `InvalidParameters` (the ranking-ratio division by zero). -/
theorem degenerate_item_raises {p : JRPParams}
    (h : ∃ it ∈ p.items, it.D = 0 ∧ it.v = 0) :
    find_formula_policy p = .error .InvalidParameters := by
  obtain ⟨it, hm, hD, hv⟩ := h
  rw [find_formula_policy, if_pos ⟨it, hm, by rw [hD, zero_mul]⟩]

/-- Witness for C5 at the concrete degenerate instance. -/
theorem degenerate_item_raises_witness :
    find_formula_policy degenerateParams = .error .InvalidParameters :=
  degenerate_item_raises ⟨{ id := "x", a := 1, D := 0, v := 0 },
    by simp [degenerateParams], rfl, rfl⟩

/-- C7: an item-attribute sweep whose key is outside `{a, D, v}` fails with
`InvalidTarget`, for every base parameter set and every sample list —
in particular before any sample is solved. -/
theorem invalid_target_raises (p : JRPParams) (item_id key : String) (values : List ℝ)
    (h : ¬ (key = "a" ∨ key = "D" ∨ key = "v")) :
    sensitivity_curve_over_item p item_id key values = .error .InvalidTarget := by
  rw [sensitivity_curve_over_item, if_pos h]

/-- Witness for C7 with the unsupported key `z`. -/
theorem invalid_target_raises_witness :
    sensitivity_curve_over_item simpleParams "x" "z" [1] = .error .InvalidTarget :=
  invalid_target_raises simpleParams "x" "z" [1] (by simp)

/-- An item whose `r * v` vanishes makes the EOQ step raise (order-quantity
division by zero). -/
theorem eoqItem_error_of_rv {A r : ℝ} {it : Item} (h : r * it.v = 0) :
    eoqItem A r it = .error .InvalidParameters := by
  rw [eoqItem, if_pos h]

/-- Every failure of the EOQ step is an `InvalidParameters` failure. -/
theorem eoqItem_ok_or_invalid (A r : ℝ) (it : Item) :
    (∃ res, eoqItem A r it = .ok res) ∨ eoqItem A r it = .error .InvalidParameters := by
  rw [eoqItem]
  split_ifs <;> first | exact .inr rfl | exact .inl ⟨_, rfl⟩

/-- The independent-policy item loop fails (with `InvalidParameters`) as soon
as any item of the list fails. -/
theorem mapEOQ_error_of_mem {A r : ℝ} {l : List Item}
    (h : ∃ it ∈ l, eoqItem A r it = .error .InvalidParameters) :
    mapEOQ A r l = .error .InvalidParameters := by
  induction l with
  | nil => simp at h
  | cons it its ih =>
    obtain ⟨x, hx, hxe⟩ := h
    rcases List.mem_cons.mp hx with rfl | hx2
    · simp only [mapEOQ]; rw [hxe]
    · simp only [mapEOQ]
      rcases eoqItem_ok_or_invalid A r it with ⟨res, hres⟩ | hres
      · rw [hres, ih ⟨x, hx2, hxe⟩]
      · rw [hres]

/-- C8: if some item has `r * v = 0`, the independent baseline solve fails
with `InvalidParameters` instead of returning a solution. -/
theorem independent_rv_zero_raises {p : JRPParams}
    (h : ∃ it ∈ p.items, p.r * it.v = 0) :
    find_independent_policy p = .error .InvalidParameters := by
  obtain ⟨it, hm, hrv⟩ := h
  have herr := mapEOQ_error_of_mem (A := p.A) (r := p.r) ⟨it, hm, eoqItem_error_of_rv hrv⟩
  simp only [find_independent_policy]
  rw [herr]

/-- Witness for C8 at the concrete zero-carrying-charge instance. -/
theorem independent_rv_zero_raises_witness :
    find_independent_policy zeroRParams = .error .InvalidParameters :=
  independent_rv_zero_raises ⟨unitItem, by simp [zeroRParams], by norm_num [zeroRParams, unitItem]⟩

/-- C9: `compare_policies` returns the difference of cycle times (an absent
cycle time counting as `0`), the difference of total costs, the difference of
item counts, and names the cheaper solution, an exact tie resolving to the
second operand. -/
theorem compare_policies_spec (sol1 sol2 : Solution) :
    (compare_policies sol1 sol2).T_star_diff = sol1.T_star.getD 0 - sol2.T_star.getD 0 ∧
    (compare_policies sol1 sol2).cost_diff = sol1.total_cost - sol2.total_cost ∧
    (compare_policies sol1 sol2).items_count_diff =
      (sol1.item_results.length : ℤ) - (sol2.item_results.length : ℤ) ∧
    (sol1.total_cost < sol2.total_cost → (compare_policies sol1 sol2).better = "Instance 1") ∧
    (sol2.total_cost ≤ sol1.total_cost → (compare_policies sol1 sol2).better = "Instance 2") := by
  refine ⟨?_, rfl, rfl, ?_, ?_⟩
  · cases h1 : sol1.T_star <;> cases h2 : sol2.T_star <;>
      simp [compare_policies, pyOrZero, h1, h2]
  · intro hlt; simp [compare_policies, if_pos hlt]
  · intro hle; simp [compare_policies, if_neg (not_lt.mpr hle)]

/-- Witness for C9: a tie goes to the second operand, a strictly cheaper
first operand is named, and an absent cycle time counts as zero. -/
theorem compare_policies_spec_witness :
    (compare_policies solFive solFiveIndep).better = "Instance 2" ∧
    (compare_policies solFour solFive).better = "Instance 1" ∧
    (compare_policies solFive solFiveIndep).T_star_diff = 2 := by
  refine ⟨(compare_policies_spec solFive solFiveIndep).2.2.2.2 (by norm_num [solFive, solFiveIndep]),
    (compare_policies_spec solFour solFive).2.2.2.1 (by norm_num [solFour, solFive]), ?_⟩
  have h := (compare_policies_spec solFive solFiveIndep).1
  simpa [solFive, solFiveIndep] using h

/-- The reported total of the Python `total_cost` helper splits exactly into
`family_setup + item_setup + holding`, because
`(A + sum(a_i / m_i)) / T = A / T + sum(a_i / (m_i * T))`. -/
theorem buildSolution_total_split (A r : ℝ) (inputItems ordered : List Item) (ms : List ℤ)
    (T : ℝ) :
    (buildSolution A r inputItems ordered ms T).cost_breakdown.family_setup = some (A / T) ∧
    (buildSolution A r inputItems ordered ms T).total_cost =
      A / T + (buildSolution A r inputItems ordered ms T).cost_breakdown.item_setup +
        (buildSolution A r inputItems ordered ms T).cost_breakdown.holding := by
  constructor
  · simp [buildSolution, total_cost]
  · simp only [buildSolution, total_cost]
    rw [sumItemSetup_eq, add_div]

/-- C3: on every successful joint solve, the returned `total_cost` equals
`family_setup + item_setup + holding` of the returned breakdown, exactly. -/
theorem joint_total_equals_breakdown_sum {p : JRPParams} {s : Solution}
    (h : find_formula_policy p = .ok s) :
    ∃ f, s.cost_breakdown.family_setup = some f ∧
      s.total_cost = f + s.cost_breakdown.item_setup + s.cost_breakdown.holding := by
  obtain ⟨-, -, -, -, -, hs⟩ := formula_ok_inv h
  subst hs
  exact ⟨_, (buildSolution_total_split _ _ _ _ _ _).1, (buildSolution_total_split _ _ _ _ _ _).2⟩

/-- Ranking the single-item list is the identity. -/
theorem rank_unitItem : rankItems [unitItem] = [unitItem] := by
  simp [rankItems, List.insertionSort]

/-- Concrete evaluation: the single-item instance `simpleParams` solves with
basic cycle time `sqrt(2 * (3 + 1) / (2 * 1)) = 2`. -/
theorem simpleParams_solve :
    find_formula_policy simpleParams = .ok (buildSolution 3 2 [unitItem] [unitItem] [1] 2) := by
  have hms : assignedMs (3 : ℝ) [unitItem] = [1] := by simp [assignedMs]
  have hnum : tNum (3 : ℝ) [unitItem] [1] = 8 := by
    norm_num [tNum, sumAoverM, unitItem]
  have hden : tDen (2 : ℝ) [unitItem] [1] = 2 := by
    norm_num [tDen, sumDVm, unitItem]
  have hsqrt : Real.sqrt (tNum (3 : ℝ) [unitItem] [1] / tDen (2 : ℝ) [unitItem] [1]) = 2 := by
    rw [hnum, hden, show (8 : ℝ) / 2 = 2 ^ 2 by norm_num, Real.sqrt_sq (by norm_num)]
  rw [find_formula_policy]
  dsimp only [simpleParams]
  rw [rank_unitItem]
  rw [if_neg (by simp [unitItem]), if_neg (by simp), if_neg (by simp), hms,
    if_neg (by rw [hden]; norm_num), if_neg (by rw [hnum]; norm_num), hsqrt]

/-- Witness for C3: the concrete single-item solve succeeds and its total
cost splits into the reported breakdown. -/
theorem joint_total_equals_breakdown_sum_witness :
    ∃ s, find_formula_policy simpleParams = .ok s ∧
      ∃ f, s.cost_breakdown.family_setup = some f ∧
        s.total_cost = f + s.cost_breakdown.item_setup + s.cost_breakdown.holding :=
  ⟨_, simpleParams_solve, joint_total_equals_breakdown_sum simpleParams_solve⟩

/-- Destructor for membership in a `zipWith`. -/
theorem of_mem_zipWith {α β γ : Type _} {f : α → β → γ} {l₁ : List α} {l₂ : List β} {x : γ}
    (h : x ∈ List.zipWith f l₁ l₂) : ∃ a b, a ∈ l₁ ∧ b ∈ l₂ ∧ x = f a b := by
  induction l₁ generalizing l₂ with
  | nil => simp at h
  | cons a l ih =>
    cases l₂ with
    | nil => simp at h
    | cons b t =>
      rcases List.mem_cons.mp h with rfl | h2
      · exact ⟨a, b, List.mem_cons_self _ _, List.mem_cons_self _ _, rfl⟩
      · obtain ⟨a2, b2, ha, hb, hx⟩ := ih h2
        exact ⟨a2, b2, List.mem_cons_of_mem _ ha, List.mem_cons_of_mem _ hb, hx⟩

/-- Every multiplier the heuristic assigns is at least `1`: the base item gets
the literal `1` and every other item gets `max(1, round(m_val))`. -/
theorem assignedMs_ge_one (A : ℝ) (l : List Item) : ∀ m ∈ assignedMs A l, 1 ≤ m := by
  cases l with
  | nil => simp [assignedMs]
  | cons base rest =>
    intro m hm
    simp only [assignedMs] at hm
    rcases List.mem_cons.mp hm with rfl | hm2
    · exact le_refl 1
    · obtain ⟨it, -, rfl⟩ := List.mem_map.mp hm2
      exact le_max_left 1 _

/-- C2: on every successful joint solve, the first-ranked item has the
smallest ranking ratio among all input items and is assigned multiplier
exactly `1`, and every multiplier in the returned solution is an integer
at least `1`. -/
theorem lowest_ratio_multiplier_one {p : JRPParams} {s : Solution}
    (h : find_formula_policy p = .ok s) :
    (∃ base rest, rankItems p.items = base :: rest ∧
      (∀ it ∈ p.items, ratioOf base ≤ ratioOf it) ∧
      assignedMs p.A (rankItems p.items) = 1 :: rest.map (multiplier p.A base)) ∧
    ∀ m ∈ s.m, 1 ≤ m := by
  obtain ⟨-, hne, -, -, -, hs⟩ := formula_ok_inv h
  constructor
  · rcases hrank : rankItems p.items with - | ⟨base, rest⟩
    · exact absurd hrank hne
    refine ⟨base, rest, rfl, ?_, by simp [assignedMs]⟩
    haveI : IsTotal Item (fun x y => ratioOf x ≤ ratioOf y) := ⟨fun a b => le_total _ _⟩
    haveI : IsTrans Item (fun x y => ratioOf x ≤ ratioOf y) :=
      ⟨fun a b c hab hbc => le_trans hab hbc⟩
    have hsorted := List.sorted_insertionSort (fun x y => ratioOf x ≤ ratioOf y) p.items
    have hperm := List.perm_insertionSort (fun x y => ratioOf x ≤ ratioOf y) p.items
    rw [show List.insertionSort (fun x y => ratioOf x ≤ ratioOf y) p.items =
      rankItems p.items from rfl, hrank] at hsorted hperm
    intro it hit
    have hmem : it ∈ base :: rest := hperm.symm.subset hit
    rcases List.mem_cons.mp hmem with rfl | hmem2
    · exact le_refl _
    · exact (List.sorted_cons.mp hsorted).1 it hmem2
  · subst hs
    intro m hm
    simp only [buildSolution] at hm
    obtain ⟨res, hres, rfl⟩ := List.mem_map.mp hm
    obtain ⟨it, -, hlook⟩ := List.mem_map.mp hres
    rcases hfind : lookupLast
        (List.zipWith
          (compute_item_metrics p.r
            (Real.sqrt (tNum p.A (rankItems p.items) (assignedMs p.A (rankItems p.items)) /
              tDen p.r (rankItems p.items) (assignedMs p.A (rankItems p.items)))))
          (rankItems p.items) (assignedMs p.A (rankItems p.items))) it.id with - | x
    · rw [hfind] at hlook
      rw [← hlook]
      norm_num [defaultItemResult]
    · rw [hfind] at hlook
      have hxmem : x ∈ List.zipWith
          (compute_item_metrics p.r
            (Real.sqrt (tNum p.A (rankItems p.items) (assignedMs p.A (rankItems p.items)) /
              tDen p.r (rankItems p.items) (assignedMs p.A (rankItems p.items)))))
          (rankItems p.items) (assignedMs p.A (rankItems p.items)) := by
        have := List.mem_of_find?_eq_some hfind
        exact (List.mem_reverse).mp this
      obtain ⟨a, b, -, hb, hx⟩ := of_mem_zipWith hxmem
      rw [← hlook, hx]
      exact assignedMs_ge_one p.A (rankItems p.items) b hb

/-- Witness for C2 at the concrete single-item instance. -/
theorem lowest_ratio_multiplier_one_witness :
    ∃ s, find_formula_policy simpleParams = .ok s ∧
      ((∃ base rest, rankItems simpleParams.items = base :: rest ∧
        (∀ it ∈ simpleParams.items, ratioOf base ≤ ratioOf it) ∧
        assignedMs simpleParams.A (rankItems simpleParams.items) =
          1 :: rest.map (multiplier simpleParams.A base)) ∧
      ∀ m ∈ s.m, 1 ≤ m) :=
  ⟨_, simpleParams_solve, lowest_ratio_multiplier_one simpleParams_solve⟩

/-- If every per-sample solve succeeds, the sweep loop succeeds and returns
one cost per sample, in sample order, each equal to the total cost of the
corresponding direct solve. -/
theorem sweepCosts_ok (f : ℝ → JRPParams) (vals : List ℝ)
    (h : ∀ v ∈ vals, ∃ s, find_formula_policy (f v) = .ok s) :
    ∃ ys, sweepCosts f vals = .ok ys ∧ ys.length = vals.length ∧
      ∀ i (hv : i < vals.length) (hy : i < ys.length),
        ∃ s, find_formula_policy (f (vals.get ⟨i, hv⟩)) = .ok s ∧
          ys.get ⟨i, hy⟩ = s.total_cost := by
  induction vals with
  | nil =>
    exact ⟨[], rfl, rfl, fun i hv _ => absurd hv (Nat.not_lt_zero i)⟩
  | cons v vs ih =>
    obtain ⟨s, hs⟩ := h v (List.mem_cons_self _ _)
    obtain ⟨ys, hys, hlen, hidx⟩ := ih (fun w hw => h w (List.mem_cons_of_mem _ hw))
    refine ⟨s.total_cost :: ys, ?_, by simp [hlen], ?_⟩
    · simp only [sweepCosts]; rw [hs, hys]
    · intro i hv hy
      cases i with
      | zero => exact ⟨s, hs, rfl⟩
      | succ j => exact hidx j (Nat.lt_of_succ_lt_succ hv) (Nat.lt_of_succ_lt_succ hy)

/-- C6: each of the three sensitivity sweeps, when every inner solve
succeeds, returns the sample sequence unchanged together with an
equally-long cost sequence whose entry at each index is the total cost of
directly solving the joint policy with just that one field replaced. -/
theorem sweep_matches_direct_solve (p : JRPParams) (item_id key : String)
    (As rvals vals : List ℝ) :
    ((∀ v ∈ As, ∃ s, find_formula_policy { A := v, r := p.r, items := p.items } = .ok s) →
      ∃ ys, sensitivity_curve_over_A p As = .ok (As, ys) ∧ ys.length = As.length ∧
        ∀ i (hv : i < As.length) (hy : i < ys.length),
          ∃ s, find_formula_policy { A := As.get ⟨i, hv⟩, r := p.r, items := p.items } = .ok s ∧
            ys.get ⟨i, hy⟩ = s.total_cost) ∧
    ((∀ v ∈ rvals, ∃ s, find_formula_policy { A := p.A, r := v, items := p.items } = .ok s) →
      ∃ ys, sensitivity_curve_over_r p rvals = .ok (rvals, ys) ∧ ys.length = rvals.length ∧
        ∀ i (hv : i < rvals.length) (hy : i < ys.length),
          ∃ s, find_formula_policy { A := p.A, r := rvals.get ⟨i, hv⟩, items := p.items } = .ok s ∧
            ys.get ⟨i, hy⟩ = s.total_cost) ∧
    ((key = "a" ∨ key = "D" ∨ key = "v") →
      (∀ v ∈ vals, ∃ s, find_formula_policy
          { A := p.A, r := p.r, items := p.items.map (substItem item_id key v) } = .ok s) →
      ∃ ys, sensitivity_curve_over_item p item_id key vals = .ok (vals, ys) ∧
        ys.length = vals.length ∧
        ∀ i (hv : i < vals.length) (hy : i < ys.length),
          ∃ s, find_formula_policy
              { A := p.A, r := p.r, items := p.items.map (substItem item_id key (vals.get ⟨i, hv⟩)) } = .ok s ∧
            ys.get ⟨i, hy⟩ = s.total_cost) := by
  refine ⟨fun h => ?_, fun h => ?_, fun hk h => ?_⟩
  · obtain ⟨ys, hsc, hlen, hidx⟩ :=
      sweepCosts_ok (fun A_val => { A := A_val, r := p.r, items := p.items }) As h
    refine ⟨ys, ?_, hlen, hidx⟩
    simp only [sensitivity_curve_over_A]; rw [hsc]
  · obtain ⟨ys, hsc, hlen, hidx⟩ :=
      sweepCosts_ok (fun r_val => { A := p.A, r := r_val, items := p.items }) rvals h
    refine ⟨ys, ?_, hlen, hidx⟩
    simp only [sensitivity_curve_over_r]; rw [hsc]
  · obtain ⟨ys, hsc, hlen, hidx⟩ :=
      sweepCosts_ok
        (fun val => { A := p.A, r := p.r, items := p.items.map (substItem item_id key val) })
        vals h
    refine ⟨ys, ?_, hlen, hidx⟩
    rw [sensitivity_curve_over_item, if_neg (not_not_intro hk), hsc]

/-- The attribute substitution at the witness sample value is the identity on
the single-item list. -/
theorem substItem_simple :
    simpleParams.items.map (substItem "x" "a" 1) = [unitItem] := by
  simp [simpleParams, substItem, unitItem]

/-- Witness for C6: all three sweeps at the concrete single-item instance,
each with a one-sample list that reproduces `simpleParams` itself. -/
theorem sweep_matches_direct_solve_witness :
    (∃ ys, sensitivity_curve_over_A simpleParams [3] = .ok ([3], ys)) ∧
    (∃ ys, sensitivity_curve_over_r simpleParams [2] = .ok ([2], ys)) ∧
    (∃ ys, sensitivity_curve_over_item simpleParams "x" "a" [1] = .ok ([1], ys)) := by
  have hthm := sweep_matches_direct_solve simpleParams "x" "a" [3] [2] [1]
  have hmap : (⟨simpleParams.A, simpleParams.r,
      simpleParams.items.map (substItem "x" "a" 1)⟩ : JRPParams) = simpleParams := by
    rw [substItem_simple]
    rfl
  have hA : ∀ v ∈ ([3] : List ℝ), ∃ s,
      find_formula_policy ⟨v, simpleParams.r, simpleParams.items⟩ = .ok s := by
    intro v hv
    rcases List.mem_singleton.mp hv with rfl
    exact ⟨_, simpleParams_solve⟩
  have hr : ∀ v ∈ ([2] : List ℝ), ∃ s,
      find_formula_policy ⟨simpleParams.A, v, simpleParams.items⟩ = .ok s := by
    intro v hv
    rcases List.mem_singleton.mp hv with rfl
    exact ⟨_, simpleParams_solve⟩
  have hitem : ∀ v ∈ ([1] : List ℝ), ∃ s,
      find_formula_policy
        ⟨simpleParams.A, simpleParams.r, simpleParams.items.map (substItem "x" "a" v)⟩ =
        .ok s := by
    intro v hv
    rcases List.mem_singleton.mp hv with rfl
    rw [hmap]
    exact ⟨_, simpleParams_solve⟩
  obtain ⟨ys1, hy1, -⟩ := hthm.1 hA
  obtain ⟨ys2, hy2, -⟩ := hthm.2.1 hr
  obtain ⟨ys3, hy3, -⟩ := hthm.2.2 (Or.inl rfl) hitem
  exact ⟨⟨ys1, hy1⟩, ⟨ys2, hy2⟩, ⟨ys3, hy3⟩⟩

/-- C10: when a non-base ranked item's continuous multiplier candidate is
exactly halfway between two integers, the assigned multiplier is the
half-to-even rounding of the candidate clamped to at least `1` (so a
candidate of exactly `k + 1/2` is rounded to `k` when `k` is even, to
`k + 1` when `k` is odd — never half away from zero), and that value is the
multiplier the solve assigns to the item. -/
theorem multiplier_tie_half_even {p : JRPParams} {base : Item} {rest : List Item}
    (it : Item) (k : ℤ) (hrank : rankItems p.items = base :: rest) (hit : it ∈ rest)
    (h : mval p.A base it = (k : ℝ) + 1 / 2) :
    multiplier p.A base it = max 1 (if Even k then k else k + 1) ∧
    multiplier p.A base it ∈ assignedMs p.A (rankItems p.items) := by
  constructor
  · rw [multiplier, h, pyRound_half]
  · rw [hrank]
    simp only [assignedMs]
    exact List.mem_cons_of_mem _ (List.mem_map.mpr ⟨it, hit, rfl⟩)

/-- The ranking of the rounding-tie instance keeps its input order. -/
theorem rank_tieParams : rankItems tieParams.items = [tieBase, tieItem] := by
  have hle : ratioOf tieBase ≤ ratioOf tieItem := by
    norm_num [ratioOf, tieBase, tieItem]
  simp only [show tieParams.items = [tieBase, tieItem] from rfl, rankItems,
    List.insertionSort, List.orderedInsert, if_pos hle]

/-- The continuous multiplier candidate of `tieItem` is exactly `5/2`. -/
theorem mval_tie : mval tieParams.A tieBase tieItem = ((2 : ℤ) : ℝ) + 1 / 2 := by
  rw [mval]
  rw [show (tieItem.a * tieBase.D * tieBase.v) /
      ((tieParams.A + tieBase.a) * (tieItem.D * tieItem.v)) = ((5 : ℝ) / 2) ^ 2 by
    norm_num [tieBase, tieItem, tieParams]]
  rw [Real.sqrt_sq (by norm_num)]
  push_cast
  norm_num

/-- Witness for C10: the candidate `5/2` is assigned multiplier `2`, the even
neighbour, not `3`. -/
theorem multiplier_tie_half_even_witness :
    multiplier tieParams.A tieBase tieItem = 2 ∧
    multiplier tieParams.A tieBase tieItem ∈ assignedMs tieParams.A (rankItems tieParams.items) := by
  have h := multiplier_tie_half_even (p := tieParams) tieItem 2 rank_tieParams
    (List.mem_singleton.mpr rfl) mval_tie
  exact ⟨by rw [h.1]; decide, h.2⟩

/-- When the squared multiplier candidate lies strictly between the squares
of `k - 1/2` and `k + 1/2` for a positive integer `k`, the assigned
multiplier is exactly `k`. -/
theorem multiplier_eq_of_bounds (A : ℝ) (base it : Item) (k : ℤ) (hk : (1 : ℤ) ≤ k)
    (h1 : ((k : ℝ) - 1 / 2) ^ 2 < (it.a * base.D * base.v) / ((A + base.a) * (it.D * it.v)))
    (h2 : (it.a * base.D * base.v) / ((A + base.a) * (it.D * it.v)) < ((k : ℝ) + 1 / 2) ^ 2) :
    multiplier A base it = k := by
  have hk1 : (1 : ℝ) ≤ (k : ℝ) := by exact_mod_cast hk
  have hlo : (k : ℝ) - 1 / 2 < mval A base it := (Real.lt_sqrt (by linarith)).mpr h1
  have hhi : mval A base it < (k : ℝ) + 1 / 2 := (Real.sqrt_lt' (by linarith)).mpr h2
  rw [multiplier, pyRound_eq_of_bounds k _ hlo hhi]
  exact max_eq_right hk

/-- The lecture items are already in ascending ratio order
(`0.015 < 0.02 < 0.025`). -/
theorem rank_lecture : rankItems [item1L, item5L, item10L] = [item1L, item5L, item10L] := by
  have h1 : ratioOf item5L ≤ ratioOf item10L := by norm_num [ratioOf, item5L, item10L]
  have h2 : ratioOf item1L ≤ ratioOf item5L := by norm_num [ratioOf, item1L, item5L]
  simp only [rankItems, List.insertionSort, List.orderedInsert, if_pos h1, if_pos h2]

/-- The lecture item `5L` rounds to multiplier `1`
(candidate `sqrt(15000/41250) = 0.603`). -/
theorem mult_lecture_5L : multiplier (40 : ℝ) item1L item5L = 1 := by
  apply multiplier_eq_of_bounds _ _ _ 1 le_rfl
  · push_cast; norm_num [item1L, item5L]
  · push_cast; norm_num [item1L, item5L]

/-- The lecture item `10L` rounds to multiplier `1`
(candidate `sqrt(15000/33000) = 0.674`). -/
theorem mult_lecture_10L : multiplier (40 : ℝ) item1L item10L = 1 := by
  apply multiplier_eq_of_bounds _ _ _ 1 le_rfl
  · push_cast; norm_num [item1L, item10L]
  · push_cast; norm_num [item1L, item10L]

/-- All three lecture multipliers are `1`. -/
theorem ms_lecture : assignedMs (40 : ℝ) [item1L, item5L, item10L] = [1, 1, 1] := by
  simp only [assignedMs, List.map_cons, List.map_nil, mult_lecture_5L, mult_lecture_10L]

/-- Cycle-time numerator of the lecture instance: `2 * (40 + 45) = 170`. -/
theorem num_lecture : tNum (40 : ℝ) [item1L, item5L, item10L] [1, 1, 1] = 170 := by
  norm_num [tNum, sumAoverM, item1L, item5L, item10L]

/-- Cycle-time denominator of the lecture instance:
`0.24 * (1000 + 750 + 600) = 564`. -/
theorem den_lecture : tDen (0.24 : ℝ) [item1L, item5L, item10L] [1, 1, 1] = 564 := by
  norm_num [tDen, sumDVm, item1L, item5L, item10L]

/-- Concrete evaluation of the lecture instance: the solve succeeds with
ranked order `1L, 5L, 10L`, multipliers `[1, 1, 1]`, and basic cycle time
`sqrt(170/564)`. -/
theorem lecture_solve :
    find_formula_policy lectureParams =
      .ok (buildSolution 40 0.24 [item1L, item5L, item10L] [item1L, item5L, item10L] [1, 1, 1]
        (Real.sqrt (170 / 564))) := by
  rw [find_formula_policy]
  dsimp only [lectureParams]
  rw [rank_lecture, ms_lecture, num_lecture, den_lecture]
  rw [if_neg (by norm_num [item1L, item5L, item10L]), if_neg (by simp),
    if_neg (by norm_num [List.headI, item1L, item5L, item10L]),
    if_neg (by norm_num), if_neg (by norm_num)]

/-- The cost fields of the lecture solution, for an arbitrary basic cycle
time `T`: total `85/T + 282 T`, family setup `40/T`, item setup `45/T`,
holding `282 T`. -/
theorem lecture_fields (T : ℝ) :
    (buildSolution 40 0.24 [item1L, item5L, item10L] [item1L, item5L, item10L] [1, 1, 1]
      T).total_cost = 85 / T + 282 * T ∧
    (buildSolution 40 0.24 [item1L, item5L, item10L] [item1L, item5L, item10L] [1, 1, 1]
      T).cost_breakdown.family_setup = some (40 / T) ∧
    (buildSolution 40 0.24 [item1L, item5L, item10L] [item1L, item5L, item10L] [1, 1, 1]
      T).cost_breakdown.item_setup = 45 / T ∧
    (buildSolution 40 0.24 [item1L, item5L, item10L] [item1L, item5L, item10L] [1, 1, 1]
      T).cost_breakdown.holding = 282 * T ∧
    (buildSolution 40 0.24 [item1L, item5L, item10L] [item1L, item5L, item10L] [1, 1, 1]
      T).T_star = some T := by
  refine ⟨?_, ?_, ?_, ?_, rfl⟩
  · simp only [buildSolution, total_cost]
    norm_num [sumAoverM, sumHolding, item1L, item5L, item10L]
    ring
  · simp [buildSolution, total_cost]
  · simp only [buildSolution, total_cost]
    norm_num [sumItemSetup, item1L, item5L, item10L]
    ring
  · simp only [buildSolution, total_cost]
    norm_num [sumHolding, item1L, item5L, item10L]
    ring

/-- The lecture solution reports multiplier `1` for every item, in input
order. -/
theorem lecture_m (T : ℝ) :
    (buildSolution 40 0.24 [item1L, item5L, item10L] [item1L, item5L, item10L] [1, 1, 1]
      T).m = [1, 1, 1] := by
  simp [buildSolution, lookupLast, List.find?, compute_item_metrics,
    item1L, item5L, item10L]

/-- Lower bound on the lecture basic cycle time. -/
theorem T_lecture_lo : (0.54901 : ℝ) ≤ Real.sqrt (170 / 564) := by
  rw [show (0.54901 : ℝ) = Real.sqrt (0.54901 ^ 2) from (Real.sqrt_sq (by norm_num)).symm]
  exact Real.sqrt_le_sqrt (by norm_num)

/-- Upper bound on the lecture basic cycle time. -/
theorem T_lecture_hi : Real.sqrt (170 / 564) ≤ (0.54902 : ℝ) := by
  rw [show (0.54902 : ℝ) = Real.sqrt (0.54902 ^ 2) from (Real.sqrt_sq (by norm_num)).symm]
  exact Real.sqrt_le_sqrt (by norm_num)

/-- C1: on the lecture instance `A = 40, r = 0.24` the solve ranks the items
`1L, 5L, 10L`, assigns every item multiplier `1`, and returns
`T* = 0.5490...`, total cost `309.64...`, family setup `72.86...`, item setup
`81.96...`, and holding `154.82...` (each within the stated tolerance of the
spec's rounded figures). -/
theorem lecture_scenario_results :
    (rankItems lectureParams.items).map Item.id = ["1L", "5L", "10L"] ∧
    ∃ s, find_formula_policy lectureParams = .ok s ∧
      s.m = [1, 1, 1] ∧
      (∃ T, s.T_star = some T ∧ |T - 0.5490| < 0.0001) ∧
      |s.total_cost - 309.64| < 0.01 ∧
      (∃ f, s.cost_breakdown.family_setup = some f ∧ |f - 72.86| < 0.01) ∧
      |s.cost_breakdown.item_setup - 81.96| < 0.01 ∧
      |s.cost_breakdown.holding - 154.82| < 0.01 := by
  have hlo := T_lecture_lo
  have hhi := T_lecture_hi
  set T := Real.sqrt ((170 : ℝ) / 564) with hT
  have hTpos : (0 : ℝ) < T := by linarith
  obtain ⟨htot, hfam, hitem, hhold, hTs⟩ := lecture_fields T
  have hd1 : 85 / T ≤ 154.8245 := (div_le_iff₀ hTpos).mpr (by linarith)
  have hd2 : 154.8213 ≤ 85 / T := (le_div_iff₀ hTpos).mpr (by linarith)
  have hd3 : 40 / T ≤ 72.859 := (div_le_iff₀ hTpos).mpr (by linarith)
  have hd4 : 72.856 ≤ 40 / T := (le_div_iff₀ hTpos).mpr (by linarith)
  have hd5 : 45 / T ≤ 81.966 := (div_le_iff₀ hTpos).mpr (by linarith)
  have hd6 : 81.962 ≤ 45 / T := (le_div_iff₀ hTpos).mpr (by linarith)
  constructor
  · rw [show lectureParams.items = [item1L, item5L, item10L] from rfl, rank_lecture]
    rfl
  refine ⟨_, lecture_solve, lecture_m T, ⟨T, hTs, ?_⟩, ?_, ⟨40 / T, hfam, ?_⟩, ?_, ?_⟩
  · rw [abs_lt]; constructor <;> linarith
  · rw [htot, abs_lt]; constructor <;> linarith
  · rw [abs_lt]; constructor <;> linarith
  · rw [hitem, abs_lt]; constructor <;> linarith
  · rw [hhold, abs_lt]; constructor <;> linarith

/-- Two item lists that are permutations of each other, both sorted by
ranking ratio, with pairwise-distinct ratios, are equal. -/
theorem sorted_perm_eq : ∀ {l₁ l₂ : List Item}, l₁.Perm l₂ →
    l₁.Pairwise (fun a b => ratioOf a ≤ ratioOf b) →
    l₂.Pairwise (fun a b => ratioOf a ≤ ratioOf b) →
    l₁.Pairwise (fun a b => ratioOf a ≠ ratioOf b) → l₁ = l₂ := by
  intro l₁
  induction l₁ with
  | nil =>
    intro l₂ hp _ _ _
    exact hp.nil_eq
  | cons a t ih =>
    intro l₂ hp hs₁ hs₂ hd
    cases l₂ with
    | nil =>
      have := hp.length_eq
      simp at this
    | cons b t₂ =>
      have hab : a = b := by
        by_contra hne
        have hbt : b ∈ t := by
          have hbmem : b ∈ a :: t := hp.symm.subset (List.mem_cons_self _ _)
          rcases List.mem_cons.mp hbmem with h | h
          · exact absurd h.symm hne
          · exact h
        have hat2 : a ∈ t₂ := by
          have hamem : a ∈ b :: t₂ := hp.subset (List.mem_cons_self _ _)
          rcases List.mem_cons.mp hamem with h | h
          · exact absurd h hne
          · exact h
        have h1 : ratioOf a ≤ ratioOf b := (List.pairwise_cons.mp hs₁).1 b hbt
        have h2 : ratioOf b ≤ ratioOf a := (List.pairwise_cons.mp hs₂).1 a hat2
        exact (List.pairwise_cons.mp hd).1 b hbt (le_antisymm h1 h2)
      subst hab
      have htp : t.Perm t₂ := (List.perm_cons a).mp hp
      rw [ih htp (List.pairwise_cons.mp hs₁).2 (List.pairwise_cons.mp hs₂).2
        (List.pairwise_cons.mp hd).2]

/-- With pairwise-distinct ranking ratios the stable ranking sort is
insensitive to the input order. -/
theorem rank_eq_of_perm_distinct {l₁ l₂ : List Item} (hp : l₁.Perm l₂)
    (hd : l₁.Pairwise (fun a b => ratioOf a ≠ ratioOf b)) :
    rankItems l₁ = rankItems l₂ := by
  haveI : IsTotal Item (fun x y => ratioOf x ≤ ratioOf y) := ⟨fun a b => le_total _ _⟩
  haveI : IsTrans Item (fun x y => ratioOf x ≤ ratioOf y) :=
    ⟨fun a b c hab hbc => le_trans hab hbc⟩
  have hsymm : ∀ {x y : Item}, ratioOf x ≠ ratioOf y → ratioOf y ≠ ratioOf x :=
    fun h he => h he.symm
  have hperm1 : (rankItems l₁).Perm l₁ := List.perm_insertionSort _ _
  have hperm2 : (rankItems l₂).Perm l₂ := List.perm_insertionSort _ _
  have hs₁ : (rankItems l₁).Pairwise (fun a b => ratioOf a ≤ ratioOf b) :=
    List.sorted_insertionSort _ _
  have hs₂ : (rankItems l₂).Pairwise (fun a b => ratioOf a ≤ ratioOf b) :=
    List.sorted_insertionSort _ _
  have hd₁ : (rankItems l₁).Pairwise (fun a b => ratioOf a ≠ ratioOf b) :=
    (List.Perm.pairwise_iff hsymm hperm1).mpr hd
  exact sorted_perm_eq (hperm1.trans (hp.trans hperm2.symm)) hs₁ hs₂ hd₁

/-- `assignedMs` has one multiplier per ranked item. -/
theorem assignedMs_length (A : ℝ) (l : List Item) : (assignedMs A l).length = l.length := by
  cases l <;> simp [assignedMs]

/-- The per-item metric entries carry the ids of the ranked items. -/
theorem zipWith_metrics_ids (r T : ℝ) :
    ∀ (l : List Item) (ms : List ℤ), ms.length = l.length →
      (List.zipWith (compute_item_metrics r T) l ms).map ItemResult.id = l.map Item.id := by
  intro l
  induction l with
  | nil => intro ms _; simp
  | cons a t ih =>
    intro ms h
    cases ms with
    | nil => simp at h
    | cons m ms2 =>
      have := ih ms2 (by simpa using h)
      simp [compute_item_metrics, this]

/-- If some entry has the requested id, `lookupLast` returns an entry with
that id. -/
theorem lookupLast_succeeds {rs : List ItemResult} {j : String}
    (h : ∃ x ∈ rs, x.id = j) : ∃ x, lookupLast rs j = some x ∧ x.id = j := by
  obtain ⟨x, hx, hxid⟩ := h
  have hrev : ∃ y ∈ rs.reverse, (fun z => z.id == j) y = true :=
    ⟨x, List.mem_reverse.mpr hx, by simp [hxid]⟩
  have hsome := List.find?_isSome.mpr hrev
  rcases hfind : rs.reverse.find? (fun z => z.id == j) with - | y
  · rw [hfind] at hsome; simp at hsome
  · have hy := List.find?_some hfind
    simp only [beq_iff_eq] at hy
    exact ⟨y, by rw [lookupLast, hfind], hy⟩

/-- Over a list of results produced by a function of the id alone, `find?`
returns the function's value at the id precisely when the id occurs. -/
theorem find_map_eq (G : String → ItemResult) :
    ∀ (l : List Item), (∀ it ∈ l, (G it.id).id = it.id) → ∀ (i : String),
      (l.map (fun it => G it.id)).find? (fun x => x.id == i) =
        if ∃ it ∈ l, it.id = i then some (G i) else none := by
  intro l
  induction l with
  | nil => intro _ i; simp
  | cons a t ih =>
    intro hG i
    simp only [List.map_cons]
    by_cases hid : a.id = i
    · have hpa : ((G a.id).id == i) = true := by
        rw [hG a (List.mem_cons_self _ _), hid]
        exact beq_self_eq_true i
      have hf := List.find?_cons_of_pos (p := fun x => x.id == i)
        (List.map (fun it => G it.id) t) hpa
      rw [hf, if_pos ⟨a, List.mem_cons_self _ _, hid⟩, hid]
    · have hpa : ¬ ((G a.id).id == i) = true := by
        rw [hG a (List.mem_cons_self _ _)]
        simp [hid]
      have hf := List.find?_cons_of_neg (p := fun x => x.id == i)
        (List.map (fun it => G it.id) t) hpa
      rw [hf]
      rw [ih (fun it h => hG it (List.mem_cons_of_mem _ h)) i]
      by_cases hex : ∃ it ∈ t, it.id = i
      · obtain ⟨it, hm, hi⟩ := hex
        rw [if_pos ⟨it, hm, hi⟩, if_pos ⟨it, List.mem_cons_of_mem _ hm, hi⟩]
      · rw [if_neg hex, if_neg ?hcons]
        case hcons =>
          rintro ⟨it, hm, hi⟩
          rcases List.mem_cons.mp hm with rfl | hm2
          · exact hid hi
          · exact hex ⟨it, hm2, hi⟩

/-- `lookupLast` version of `find_map_eq`. -/
theorem lookupLast_map_eq (G : String → ItemResult) (l : List Item)
    (hG : ∀ it ∈ l, (G it.id).id = it.id) (i : String) :
    lookupLast (l.map (fun it => G it.id)) i =
      if ∃ it ∈ l, it.id = i then some (G i) else none := by
  rw [lookupLast, ← List.map_reverse,
    find_map_eq G l.reverse (fun it h => hG it (List.mem_reverse.mp h)) i]
  simp only [List.mem_reverse]

/-- The re-projected per-item results of `buildSolution`, looked up by id,
depend only on which ids occur in the caller's items: the value is the
ranked-order metric entry for that id. -/
theorem buildSolution_lookup (A r : ℝ) (inputItems ordered : List Item) (ms : List ℤ)
    (T : ℝ) (hin : ∀ it ∈ inputItems, it ∈ ordered) (hlen : ms.length = ordered.length)
    (i : String) :
    lookupLast (buildSolution A r inputItems ordered ms T).item_results i =
      if ∃ it ∈ inputItems, it.id = i then
        some ((lookupLast (List.zipWith (compute_item_metrics r T) ordered ms) i).getD
          defaultItemResult)
      else none := by
  have hids := zipWith_metrics_ids r T ordered ms hlen
  have hG : ∀ it ∈ inputItems,
      ((lookupLast (List.zipWith (compute_item_metrics r T) ordered ms) it.id).getD
        defaultItemResult).id = it.id := by
    intro it hit
    have hmem : it.id ∈ (List.zipWith (compute_item_metrics r T) ordered ms).map
        ItemResult.id := by
      rw [hids]
      exact List.mem_map.mpr ⟨it, hin it hit, rfl⟩
    obtain ⟨x, hx, hxid⟩ := List.mem_map.mp hmem
    obtain ⟨y, hy, hyid⟩ := lookupLast_succeeds ⟨x, hx, hxid⟩
    rw [hy, Option.getD_some, hyid]
  simp only [buildSolution]
  exact lookupLast_map_eq
    (fun j => (lookupLast (List.zipWith (compute_item_metrics r T) ordered ms) j).getD
      defaultItemResult) inputItems hG i

/-- C4 (amended): for parameter sets whose items have pairwise-distinct
ranking ratios `a/(D*v)`, solving any reordering of the items and relabeling
the per-item outputs by item id yields identical per-item numeric results
(and the same basic cycle time). -/
theorem order_independence_distinct_ratios {p q : JRPParams} {s : Solution}
    (hA : q.A = p.A) (hr : q.r = p.r) (hperm : q.items.Perm p.items)
    (hdist : p.items.Pairwise (fun a b => ratioOf a ≠ ratioOf b))
    (hok : find_formula_policy p = .ok s) :
    ∃ t, find_formula_policy q = .ok t ∧ t.T_star = s.T_star ∧
      ∀ i : String, lookupLast t.item_results i = lookupLast s.item_results i := by
  obtain ⟨hg1, hne, hg3, hden, hnum, hs⟩ := formula_ok_inv hok
  have hsymm : ∀ {x y : Item}, ratioOf x ≠ ratioOf y → ratioOf y ≠ ratioOf x :=
    fun h he => h he.symm
  have hdq : q.items.Pairwise (fun a b => ratioOf a ≠ ratioOf b) :=
    (List.Perm.pairwise_iff hsymm hperm).mpr hdist
  have hrank : rankItems q.items = rankItems p.items := rank_eq_of_perm_distinct hperm hdq
  have hg1q : ¬ ∃ it ∈ q.items, it.D * it.v = 0 := by
    rintro ⟨it, hm, hz⟩
    exact hg1 ⟨it, hperm.subset hm, hz⟩
  have hokq : find_formula_policy q =
      .ok (buildSolution p.A p.r q.items (rankItems p.items)
        (assignedMs p.A (rankItems p.items))
        (Real.sqrt (tNum p.A (rankItems p.items) (assignedMs p.A (rankItems p.items)) /
          tDen p.r (rankItems p.items) (assignedMs p.A (rankItems p.items))))) := by
    rw [find_formula_policy, hrank, hA, hr, if_neg hg1q, if_neg hne, if_neg hg3,
      if_neg (not_le.mpr hden), if_neg (not_le.mpr hnum)]
  have hlen : (assignedMs p.A (rankItems p.items)).length = (rankItems p.items).length :=
    assignedMs_length _ _
  have hinq : ∀ it ∈ q.items, it ∈ rankItems p.items := by
    intro it hit
    rw [← hrank]
    exact (List.perm_insertionSort _ q.items).symm.subset hit
  have hinp : ∀ it ∈ p.items, it ∈ rankItems p.items := by
    intro it hit
    exact (List.perm_insertionSort _ p.items).symm.subset hit
  refine ⟨_, hokq, by rw [hs]; rfl, ?_⟩
  intro i
  rw [hs, buildSolution_lookup p.A p.r q.items (rankItems p.items) _ _ hinq hlen i,
    buildSolution_lookup p.A p.r p.items (rankItems p.items) _ _ hinp hlen i]
  by_cases hex : ∃ it ∈ p.items, it.id = i
  · obtain ⟨it, hm, hi⟩ := hex
    rw [if_pos ⟨it, hperm.symm.subset hm, hi⟩, if_pos ⟨it, hm, hi⟩]
  · rw [if_neg hex, if_neg ?hq]
    case hq =>
      rintro ⟨it, hm, hi⟩
      exact hex ⟨it, hperm.subset hm, hi⟩

/-- Witness for the amended C4 at the concrete single-item instance (the
identity permutation of a singleton has trivially distinct ratios). -/
theorem order_independence_distinct_ratios_witness :
    ∃ t, find_formula_policy simpleParams = .ok t ∧
      t.T_star = (buildSolution 3 2 [unitItem] [unitItem] [1] 2).T_star ∧
      ∀ i : String, lookupLast t.item_results i =
        lookupLast (buildSolution 3 2 [unitItem] [unitItem] [1] 2).item_results i :=
  order_independence_distinct_ratios rfl rfl (List.Perm.refl _) (by simp [simpleParams])
    simpleParams_solve

/-- Tie instance `X, Y, Z`: stable ranking keeps the input order (the ratios
of `X` and `Y` are both `1`). -/
theorem rank_permA : rankItems [itemX, itemY, itemZ] = [itemX, itemY, itemZ] := by
  have h1 : ratioOf itemY ≤ ratioOf itemZ := by norm_num [ratioOf, itemY, itemZ]
  have h2 : ratioOf itemX ≤ ratioOf itemY := by norm_num [ratioOf, itemX, itemY]
  simp only [rankItems, List.insertionSort, List.orderedInsert, if_pos h1, if_pos h2]

/-- Tie instance `Y, X, Z`: stable ranking keeps the input order, so `Y` is
now the base item. -/
theorem rank_permB : rankItems [itemY, itemX, itemZ] = [itemY, itemX, itemZ] := by
  have h1 : ratioOf itemX ≤ ratioOf itemZ := by norm_num [ratioOf, itemX, itemZ]
  have h2 : ratioOf itemY ≤ ratioOf itemX := by norm_num [ratioOf, itemY, itemX]
  simp only [rankItems, List.insertionSort, List.orderedInsert, if_pos h1, if_pos h2]

/-- With base `X`, item `Y` gets multiplier `1` (candidate `sqrt(1/2)`). -/
theorem mult_permA_Y : multiplier (1 : ℝ) itemX itemY = 1 := by
  apply multiplier_eq_of_bounds _ _ _ 1 le_rfl
  · push_cast; norm_num [itemX, itemY]
  · push_cast; norm_num [itemX, itemY]

/-- With base `X`, item `Z` gets multiplier `5` (candidate `sqrt(25) = 5`). -/
theorem mult_permA_Z : multiplier (1 : ℝ) itemX itemZ = 5 := by
  apply multiplier_eq_of_bounds _ _ _ 5 (by norm_num)
  · push_cast; norm_num [itemX, itemZ]
  · push_cast; norm_num [itemX, itemZ]

/-- With base `Y`, item `X` gets multiplier `1` (candidate `sqrt(4/5)`). -/
theorem mult_permB_X : multiplier (1 : ℝ) itemY itemX = 1 := by
  apply multiplier_eq_of_bounds _ _ _ 1 le_rfl
  · push_cast; norm_num [itemX, itemY]
  · push_cast; norm_num [itemX, itemY]

/-- With base `Y`, item `Z` gets multiplier `6` (candidate
`sqrt(40) = 6.32`). -/
theorem mult_permB_Z : multiplier (1 : ℝ) itemY itemZ = 6 := by
  apply multiplier_eq_of_bounds _ _ _ 6 (by norm_num)
  · push_cast; norm_num [itemY, itemZ]
  · push_cast; norm_num [itemY, itemZ]

/-- Multipliers of the `X, Y, Z` ordering. -/
theorem ms_permA : assignedMs (1 : ℝ) [itemX, itemY, itemZ] = [1, 1, 5] := by
  simp only [assignedMs, List.map_cons, List.map_nil, mult_permA_Y, mult_permA_Z]

/-- Multipliers of the `Y, X, Z` ordering. -/
theorem ms_permB : assignedMs (1 : ℝ) [itemY, itemX, itemZ] = [1, 1, 6] := by
  simp only [assignedMs, List.map_cons, List.map_nil, mult_permB_X, mult_permB_Z]

/-- Concrete evaluation of the `X, Y, Z` ordering. -/
theorem permA_solve :
    find_formula_policy permParamsA =
      .ok (buildSolution 1 1 [itemX, itemY, itemZ] [itemX, itemY, itemZ] [1, 1, 5]
        (Real.sqrt (52 / 15))) := by
  have hnum : tNum (1 : ℝ) [itemX, itemY, itemZ] [1, 1, 5] = 52 := by
    norm_num [tNum, sumAoverM, itemX, itemY, itemZ]
  have hden : tDen (1 : ℝ) [itemX, itemY, itemZ] [1, 1, 5] = 15 := by
    norm_num [tDen, sumDVm, itemX, itemY, itemZ]
  rw [find_formula_policy]
  dsimp only [permParamsA]
  rw [rank_permA, ms_permA, hnum, hden]
  rw [if_neg (by norm_num [itemX, itemY, itemZ]), if_neg (by simp),
    if_neg (by norm_num [List.headI, itemX, itemY, itemZ]),
    if_neg (by norm_num), if_neg (by norm_num)]

/-- Concrete evaluation of the `Y, X, Z` ordering: item `Z` now gets
multiplier `6`, not `5`. -/
theorem permB_solve :
    find_formula_policy permParamsB =
      .ok (buildSolution 1 1 [itemY, itemX, itemZ] [itemY, itemX, itemZ] [1, 1, 6]
        (Real.sqrt (136 / 3 / 17))) := by
  have hnum : tNum (1 : ℝ) [itemY, itemX, itemZ] [1, 1, 6] = 136 / 3 := by
    norm_num [tNum, sumAoverM, itemX, itemY, itemZ]
  have hden : tDen (1 : ℝ) [itemY, itemX, itemZ] [1, 1, 6] = 17 := by
    norm_num [tDen, sumDVm, itemX, itemY, itemZ]
  rw [find_formula_policy]
  dsimp only [permParamsB]
  rw [rank_permB, ms_permB, hnum, hden]
  rw [if_neg (by norm_num [itemX, itemY, itemZ]), if_neg (by simp),
    if_neg (by norm_num [List.headI, itemX, itemY, itemZ]),
    if_neg (by norm_num), if_neg (by norm_num)]

/-- C4 counterexample: `permParamsB` reorders the items of `permParamsA`
(same `A`, same `r`), yet after relabeling by id the per-item result for item
`Z` differs — multiplier `5` under one input order, `6` under the other.
The two tied lowest-ratio items make the base-item choice, and hence the
numeric outputs, depend on the input order. -/
theorem order_dependence_counterexample :
    permParamsB.A = permParamsA.A ∧ permParamsB.r = permParamsA.r ∧
    permParamsB.items.Perm permParamsA.items ∧
    ∃ s1 s2, find_formula_policy permParamsA = .ok s1 ∧
      find_formula_policy permParamsB = .ok s2 ∧
      (lookupLast s1.item_results "Z").map ItemResult.m = some 5 ∧
      (lookupLast s2.item_results "Z").map ItemResult.m = some 6 := by
  refine ⟨rfl, rfl, List.Perm.swap itemX itemY [itemZ], _, _, permA_solve, permB_solve, ?_, ?_⟩
  · simp [buildSolution, lookupLast, List.find?, compute_item_metrics, itemX, itemY, itemZ]
  · simp [buildSolution, lookupLast, List.find?, compute_item_metrics, itemX, itemY, itemZ]
